import Mathlib

/-!
Verification of the file-based IPC wrapper `droidrun_wrapper.py`
(class `AndroidToolsWrapper`).

The Python module bridges an automation agent to a native executor through
three JSON files: a state file (read by the agent), an actions file (written
by the agent) and a result file (written by the executor, read and deleted
by the agent).  This development gives a shallow embedding of the pure
decision logic of that module:

* `execute_action` models `_execute_action`: write one request, then poll
  the result file under a 30 s deadline at a 100 ms interval.  The contents
  the agent observes at each poll are an input trace `obs : Nat → FileState`;
  the external JSON parser `json.loads` applied to the payload string is an
  abstract parameter `jloads`.
* `get_state` models the retry loop reading the state file (10 attempts).
* `find_element_by_index` / `locateByIndex` model the recursive element
  search and midpoint computation of `_extract_element_coordinates_by_index`.
* `remember`, `complete`, `tap_by_index` model the session-state operations.

Time is measured in integer milliseconds (the source uses float seconds with
a 0.1 s interval and a 30.0 s deadline; iteration n of the loop is idealised
to happen at elapsed time n * 100 ms).
-/

/-- A minimal JSON value, the codomain of the abstract payload parser. -/
inductive Json where
  | null
  | bool (b : Bool)
  | num (n : Int)
  | str (s : String)
  | arr (elems : List Json)
  | obj (fields : List (String × Json))

/-- A parsed action-result file: the four fields the source reads with
`result_data.get`, each possibly absent. -/
structure ActionResult where
  actionId : Option String
  success : Option Bool
  result : Option String
  error : Option String

/-- What one poll of the result file can observe: the file is absent,
present but not valid JSON (`json.load` raises `JSONDecodeError`, e.g. a
partial write), or a parsed `ActionResult`. -/
inductive FileState where
  | absent
  | malformed
  | present (r : ActionResult)

/-- The request record `_execute_action` serialises to the actions file. -/
structure ActionRequest where
  actionType : String
  parameters : List (String × String)
  timestamp : Nat
  actionId : String

/-- Outcome of one `_execute_action` call: a returned value (decoded JSON or
the raw payload string), a raised `Exception("Action failed: ...")`, or a
raised `TimeoutError` carrying the action type and the configured wait. -/
inductive ExecOutcome where
  | ok (payload : Json ⊕ String)
  | actionFailure (msg : String)
  | timedOut (actionType : String) (maxWaitMs : Nat)

/-- `max_wait_time = 30.0` seconds, in milliseconds. -/
def maxWaitMs : Nat := 30000

/-- `poll_interval = 0.1` seconds, in milliseconds. -/
def pollIntervalMs : Nat := 100

/-- One iteration of the poll loop body, given the observed file state.
`none` means the iteration falls through to `asyncio.sleep` and the loop
continues: file absent, `json.load` failed (caught `JSONDecodeError`), or
the parsed `actionId` differs from the one just submitted.  `some out`
means the call ends this iteration, having first deleted the result file. -/
def checkOnce (jloads : String → Option Json) (action_id : String)
    (fs : FileState) : Option ExecOutcome :=
  match fs with
  | .absent => none
  | .malformed => none
  | .present r =>
    if r.actionId = some action_id then
      if r.success = some true then
        let result_str := r.result.getD ""
        match jloads result_str with
        | some v => some (.ok (.inl v))
        | none => some (.ok (.inr result_str))
      else
        some (.actionFailure ("Action failed: " ++ r.error.getD "Unknown error"))
    else
      none

/-- Result of running the poll loop: the outcome, the iteration at which
`os.remove(self.result_file)` ran (if any), and the iteration index at
which the loop stopped (on timeout, the first index past the deadline). -/
structure PollResult where
  outcome : ExecOutcome
  deletedAt : Option Nat
  exitIter : Nat

/-- The `while time.time() - start_time < max_wait_time` loop of
`_execute_action`, polling from iteration `n` (at elapsed `n * 100` ms). -/
def execPoll (jloads : String → Option Json) (action_type action_id : String)
    (obs : Nat → FileState) (n : Nat) : PollResult :=
  if h : n * pollIntervalMs < maxWaitMs then
    match checkOnce jloads action_id (obs n) with
    | some out => ⟨out, some n, n⟩
    | none => execPoll jloads action_type action_id obs (n + 1)
  else
    ⟨.timedOut action_type maxWaitMs, none, n⟩
termination_by maxWaitMs - n * pollIntervalMs
decreasing_by
  simp only [maxWaitMs, pollIntervalMs] at h ⊢
  omega

/-- A whole `_execute_action` call: the requests written to the actions
file (the source writes exactly one, before the loop; `action_id` is the
fresh `uuid.uuid4()` string and `now` the timestamp) and the poll result. -/
structure ExecCall where
  requestsWritten : List ActionRequest
  result : PollResult

/-- Model of `_execute_action`. -/
def execute_action (jloads : String → Option Json) (action_type : String)
    (parameters : List (String × String)) (action_id : String) (now : Nat)
    (obs : Nat → FileState) : ExecCall :=
  { requestsWritten := [⟨action_type, parameters, now, action_id⟩]
  , result := execPoll jloads action_type action_id obs 0 }

/-- The result file's state at the moment the call returns: deleted by the
call if it matched, otherwise whatever the loop last saw at its exit. -/
def fileAfter (obs : Nat → FileState) (c : ExecCall) : FileState :=
  match c.result.deletedAt with
  | some _ => .absent
  | none => obs c.result.exitIter

/-! ### Poll-loop lemmas -/

/-- A poll observation that is not a parsed result carrying this call's
`actionId` makes the iteration fall through (no deletion, keep polling). -/
theorem checkOnce_none_of_not_matching (jloads : String → Option Json)
    (action_id : String) (fs : FileState)
    (h : ∀ r, fs = .present r → r.actionId ≠ some action_id) :
    checkOnce jloads action_id fs = none := by
  cases fs with
  | absent => rfl
  | malformed => rfl
  | present r => simp [checkOnce, h r rfl]

/-- `checkOnce` ends the call only on a parsed result whose `actionId`
equals the submitted one. -/
theorem checkOnce_some_implies_match (jloads : String → Option Json)
    (action_id : String) (fs : FileState) (out : ExecOutcome)
    (h : checkOnce jloads action_id fs = some out) :
    ∃ r, fs = .present r ∧ r.actionId = some action_id := by
  cases fs with
  | absent => simp [checkOnce] at h
  | malformed => simp [checkOnce] at h
  | present r =>
    refine ⟨r, rfl, ?_⟩
    by_cases hid : r.actionId = some action_id
    · exact hid
    · simp [checkOnce, hid] at h

theorem execPoll_deadline (jloads : String → Option Json)
    (action_type action_id : String) (obs : Nat → FileState) (n : Nat)
    (hn : ¬ n * pollIntervalMs < maxWaitMs) :
    execPoll jloads action_type action_id obs n
      = ⟨.timedOut action_type maxWaitMs, none, n⟩ := by
  rw [execPoll]
  simp [hn]

theorem execPoll_step_some (jloads : String → Option Json)
    (action_type action_id : String) (obs : Nat → FileState) (n : Nat)
    (out : ExecOutcome) (hn : n * pollIntervalMs < maxWaitMs)
    (hc : checkOnce jloads action_id (obs n) = some out) :
    execPoll jloads action_type action_id obs n = ⟨out, some n, n⟩ := by
  rw [execPoll]
  simp [hn, hc]

theorem execPoll_step_none (jloads : String → Option Json)
    (action_type action_id : String) (obs : Nat → FileState) (n : Nat)
    (hn : n * pollIntervalMs < maxWaitMs)
    (hc : checkOnce jloads action_id (obs n) = none) :
    execPoll jloads action_type action_id obs n
      = execPoll jloads action_type action_id obs (n + 1) := by
  rw [execPoll]
  simp [hn, hc]

/-- If the first deciding observation is at iteration `m`, the loop started
at any `n ≤ m` ends at `m` with that observation's outcome. -/
theorem execPoll_first_match (jloads : String → Option Json)
    (action_type action_id : String) (obs : Nat → FileState)
    (m : Nat) (out : ExecOutcome)
    (hm : m * pollIntervalMs < maxWaitMs)
    (hbefore : ∀ k < m, checkOnce jloads action_id (obs k) = none)
    (hc : checkOnce jloads action_id (obs m) = some out) :
    ∀ n, n ≤ m → execPoll jloads action_type action_id obs n = ⟨out, some m, m⟩ := by
  have key : ∀ fuel n, n ≤ m → m - n = fuel →
      execPoll jloads action_type action_id obs n = ⟨out, some m, m⟩ := by
    intro fuel
    induction fuel with
    | zero =>
      intro n hle hfuel
      have hnm : n = m := by omega
      subst hnm
      exact execPoll_step_some jloads action_type action_id obs n out hm hc
    | succ d ih =>
      intro n hle hfuel
      have hlt : n < m := by omega
      have hng : n * pollIntervalMs < maxWaitMs := by
        simp only [pollIntervalMs, maxWaitMs] at hm ⊢
        omega
      rw [execPoll_step_none jloads action_type action_id obs n hng (hbefore n hlt)]
      exact ih (n + 1) (by omega) (by omega)
  intro n hle
  exact key (m - n) n hle rfl

/-- If no observation before the deadline decides the call, the loop exits
at iteration 300 (elapsed 30000 ms) with a timeout and no deletion. -/
theorem execPoll_no_match (jloads : String → Option Json)
    (action_type action_id : String) (obs : Nat → FileState)
    (hall : ∀ k < 300, checkOnce jloads action_id (obs k) = none) :
    ∀ n, n ≤ 300 → execPoll jloads action_type action_id obs n
      = ⟨.timedOut action_type maxWaitMs, none, 300⟩ := by
  have key : ∀ fuel n, n ≤ 300 → 300 - n = fuel →
      execPoll jloads action_type action_id obs n
        = ⟨.timedOut action_type maxWaitMs, none, 300⟩ := by
    intro fuel
    induction fuel with
    | zero =>
      intro n hle hfuel
      have hnm : n = 300 := by omega
      subst hnm
      apply execPoll_deadline
      simp [pollIntervalMs, maxWaitMs]
    | succ d ih =>
      intro n hle hfuel
      have hlt : n < 300 := by omega
      have hng : n * pollIntervalMs < maxWaitMs := by
        simp only [pollIntervalMs, maxWaitMs]
        omega
      rw [execPoll_step_none jloads action_type action_id obs n hng (hall n hlt)]
      exact ih (n + 1) (by omega) (by omega)
  intro n hle
  exact key (300 - n) n hle rfl

/-- The loop deletes the result file only at an iteration whose observation
decided the call. -/
theorem execPoll_deletedAt_decided (jloads : String → Option Json)
    (action_type action_id : String) (obs : Nat → FileState) :
    ∀ n m, (execPoll jloads action_type action_id obs n).deletedAt = some m →
      ∃ out, checkOnce jloads action_id (obs m) = some out := by
  have key : ∀ fuel n m, 300 - n = fuel →
      (execPoll jloads action_type action_id obs n).deletedAt = some m →
      ∃ out, checkOnce jloads action_id (obs m) = some out := by
    intro fuel
    induction fuel with
    | zero =>
      intro n m hfuel h
      have hg : ¬ n * pollIntervalMs < maxWaitMs := by
        simp only [pollIntervalMs, maxWaitMs]
        omega
      rw [execPoll_deadline jloads action_type action_id obs n hg] at h
      simp at h
    | succ d ih =>
      intro n m hfuel h
      by_cases hg : n * pollIntervalMs < maxWaitMs
      · cases hc : checkOnce jloads action_id (obs n) with
        | some out =>
          rw [execPoll_step_some jloads action_type action_id obs n out hg hc] at h
          simp at h
          exact ⟨out, h ▸ hc⟩
        | none =>
          rw [execPoll_step_none jloads action_type action_id obs n hg hc] at h
          exact ih (n + 1) m (by omega) h
      · rw [execPoll_deadline jloads action_type action_id obs n hg] at h
        simp at h
  intro n m
  exact key (300 - n) n m rfl

/-- Skipping an initial segment of undecided observations. -/
theorem execPoll_skip (jloads : String → Option Json)
    (action_type action_id : String) (obs : Nat → FileState) :
    ∀ j, j ≤ 300 → (∀ k < j, checkOnce jloads action_id (obs k) = none) →
      execPoll jloads action_type action_id obs 0
        = execPoll jloads action_type action_id obs j := by
  intro j
  induction j with
  | zero => intro _ _; rfl
  | succ i ih =>
    intro hle hall
    have hg : i * pollIntervalMs < maxWaitMs := by
      simp only [pollIntervalMs, maxWaitMs]
      omega
    rw [ih (by omega) (fun k hk => hall k (by omega))]
    exact execPoll_step_none jloads action_type action_id obs i hg (hall i (by omega))

/-! ### Claims about the action channel -/

/-- C1: if during the poll loop (before the deadline, no earlier deciding
observation) the result file parses as an `ActionResult` whose `actionId`
equals the one just written and whose `success` is true, then
`_execute_action` deletes the result file and returns the `result` string
parsed as structured payload, or the raw `result` string unchanged when
that parse fails; afterwards the result file no longer exists. -/
theorem c1_matching_success_returns_and_deletes
    (jloads : String → Option Json) (action_type : String)
    (parameters : List (String × String)) (action_id : String) (now m : Nat)
    (obs : Nat → FileState) (r : ActionResult)
    (hm : m * pollIntervalMs < maxWaitMs)
    (hbefore : ∀ k < m, checkOnce jloads action_id (obs k) = none)
    (hobs : obs m = .present r)
    (hid : r.actionId = some action_id)
    (hsucc : r.success = some true) :
    (execute_action jloads action_type parameters action_id now obs).result.deletedAt
        = some m
    ∧ (∀ v, jloads (r.result.getD "") = some v →
        (execute_action jloads action_type parameters action_id now obs).result.outcome
          = .ok (.inl v))
    ∧ (jloads (r.result.getD "") = none →
        (execute_action jloads action_type parameters action_id now obs).result.outcome
          = .ok (.inr (r.result.getD "")))
    ∧ fileAfter obs (execute_action jloads action_type parameters action_id now obs)
        = .absent := by
  cases hp : jloads (r.result.getD "") with
  | some v =>
    have hc : checkOnce jloads action_id (obs m) = some (.ok (.inl v)) := by
      rw [hobs]
      simp [checkOnce, hid, hsucc, hp]
    have hrun := execPoll_first_match jloads action_type action_id obs m _
      hm hbefore hc 0 (Nat.zero_le m)
    refine ⟨?_, ?_, ?_, ?_⟩
    · simp [execute_action, hrun]
    · intro v' hv'
      cases hv'
      simp [execute_action, hrun]
    · intro hnone
      exact Option.noConfusion hnone
    · simp [fileAfter, execute_action, hrun]
  | none =>
    have hc : checkOnce jloads action_id (obs m)
        = some (.ok (.inr (r.result.getD ""))) := by
      rw [hobs]
      simp [checkOnce, hid, hsucc, hp]
    have hrun := execPoll_first_match jloads action_type action_id obs m _
      hm hbefore hc 0 (Nat.zero_le m)
    refine ⟨?_, ?_, ?_, ?_⟩
    · simp [execute_action, hrun]
    · intro v' hv'
      exact Option.noConfusion hv'
    · intro _
      simp [execute_action, hrun]
    · simp [fileAfter, execute_action, hrun]

/-- Witness for C1 at a concrete call: matching successful result observed
at the first poll, payload parser failing, so the raw string is returned. -/
def jlNone : String → Option Json := fun _ => none

def rOkW : ActionResult :=
  { actionId := some "id-w", success := some true, result := some "7", error := none }

theorem c1_witness :
    (execute_action jlNone "tap_by_index" [("index", "3")] "id-w" 0
        (fun _ => FileState.present rOkW)).result.deletedAt = some 0
    ∧ (∀ v, jlNone (rOkW.result.getD "") = some v →
        (execute_action jlNone "tap_by_index" [("index", "3")] "id-w" 0
          (fun _ => FileState.present rOkW)).result.outcome = .ok (.inl v))
    ∧ (jlNone (rOkW.result.getD "") = none →
        (execute_action jlNone "tap_by_index" [("index", "3")] "id-w" 0
          (fun _ => FileState.present rOkW)).result.outcome
            = .ok (.inr (rOkW.result.getD "")))
    ∧ fileAfter (fun _ => FileState.present rOkW)
        (execute_action jlNone "tap_by_index" [("index", "3")] "id-w" 0
          (fun _ => FileState.present rOkW)) = .absent :=
  c1_matching_success_returns_and_deletes jlNone "tap_by_index" [("index", "3")]
    "id-w" 0 0 (fun _ => FileState.present rOkW) rOkW (by decide)
    (fun k hk => absurd hk (Nat.not_lt_zero k)) rfl rfl rfl

/-- C2: the poll loop never deletes the result file at an iteration whose
observation is not a parsed result carrying this call's own `actionId`
(absent, unparseable, or a foreign id); after a run of such iterations the
call is still polling, i.e. its result is that of the loop continued at the
next iteration (until its own id appears or the deadline is reached). -/
theorem c2_no_foreign_delete_keeps_polling
    (jloads : String → Option Json) (action_type : String)
    (parameters : List (String × String)) (action_id : String) (now : Nat)
    (obs : Nat → FileState) :
    (∀ n, (execute_action jloads action_type parameters action_id now obs).result.deletedAt
        = some n → ∃ r, obs n = .present r ∧ r.actionId = some action_id)
    ∧ (∀ m, m * pollIntervalMs < maxWaitMs →
        (∀ k, k ≤ m → ∀ r, obs k = .present r → r.actionId ≠ some action_id) →
        (execute_action jloads action_type parameters action_id now obs).result
          = execPoll jloads action_type action_id obs (m + 1)) := by
  constructor
  · intro n h
    simp only [execute_action] at h
    obtain ⟨out, hc⟩ := execPoll_deletedAt_decided jloads action_type action_id obs 0 n h
    exact checkOnce_some_implies_match jloads action_id (obs n) out hc
  · intro m hm hall
    have hnone : ∀ k < m + 1, checkOnce jloads action_id (obs k) = none := by
      intro k hk
      exact checkOnce_none_of_not_matching jloads action_id (obs k)
        (hall k (by omega))
    have hle : m + 1 ≤ 300 := by
      simp only [pollIntervalMs, maxWaitMs] at hm
      omega
    simpa only [execute_action] using
      execPoll_skip jloads action_type action_id obs (m + 1) hle hnone

/-- Witness for C2: a malformed (mid-write) result file at the first poll
is not deleted and the call goes on to the next iteration. -/
theorem c2_witness :
    (execute_action jlNone "swipe" [] "id-w" 0 (fun _ => FileState.malformed)).result
      = execPoll jlNone "swipe" "id-w" (fun _ => FileState.malformed) 1 :=
  (c2_no_foreign_delete_keeps_polling jlNone "swipe" [] "id-w" 0
      (fun _ => FileState.malformed)).2 0 (by decide)
    (fun k hk r hr => FileState.noConfusion hr)

/-- C3: if no result with a matching `actionId` is ever observed, the call
fails with `TimeoutError` reporting the actionType and the configured
duration; the loop exits only once the full deadline has elapsed (its exit
time is at least 30000 ms and within one poll interval of it), nothing is
deleted, and the request is written exactly once (never resent). -/
theorem c3_timeout_after_full_deadline
    (jloads : String → Option Json) (action_type : String)
    (parameters : List (String × String)) (action_id : String) (now : Nat)
    (obs : Nat → FileState)
    (hnever : ∀ k, ∀ r, obs k = .present r → r.actionId ≠ some action_id) :
    (execute_action jloads action_type parameters action_id now obs).result.outcome
        = .timedOut action_type maxWaitMs
    ∧ (execute_action jloads action_type parameters action_id now obs).result.deletedAt
        = none
    ∧ maxWaitMs ≤ (execute_action jloads action_type parameters action_id now
        obs).result.exitIter * pollIntervalMs
    ∧ (execute_action jloads action_type parameters action_id now
        obs).result.exitIter * pollIntervalMs < maxWaitMs + pollIntervalMs
    ∧ (execute_action jloads action_type parameters action_id now obs).requestsWritten
        = [⟨action_type, parameters, now, action_id⟩] := by
  have hall : ∀ k < 300, checkOnce jloads action_id (obs k) = none := by
    intro k _
    exact checkOnce_none_of_not_matching jloads action_id (obs k) (hnever k)
  have hrun := execPoll_no_match jloads action_type action_id obs hall 0 (by omega)
  refine ⟨?_, ?_, ?_, ?_, ?_⟩
  · simp [execute_action, hrun]
  · simp [execute_action, hrun]
  · simp only [execute_action, hrun, maxWaitMs, pollIntervalMs]
    omega
  · simp only [execute_action, hrun, maxWaitMs, pollIntervalMs]
    omega
  · rfl

/-- Witness for C3: the result file never appears at all. -/
theorem c3_witness :
    (execute_action jlNone "back" [] "id-w" 0 (fun _ => FileState.absent)).result.outcome
        = .timedOut "back" maxWaitMs
    ∧ (execute_action jlNone "back" [] "id-w" 0
        (fun _ => FileState.absent)).result.deletedAt = none
    ∧ maxWaitMs ≤ (execute_action jlNone "back" [] "id-w" 0
        (fun _ => FileState.absent)).result.exitIter * pollIntervalMs
    ∧ (execute_action jlNone "back" [] "id-w" 0
        (fun _ => FileState.absent)).result.exitIter * pollIntervalMs
          < maxWaitMs + pollIntervalMs
    ∧ (execute_action jlNone "back" [] "id-w" 0
        (fun _ => FileState.absent)).requestsWritten = [⟨"back", [], 0, "id-w"⟩] :=
  c3_timeout_after_full_deadline jlNone "back" [] "id-w" 0 (fun _ => FileState.absent)
    (fun k r hr => FileState.noConfusion hr)

/-- C4: a parsed result with a matching `actionId` and `success` false makes
the call delete the result file and then raise the action-failure
`Exception` carrying the result's `error` string ("Unknown error" when the
field is absent); that outcome is distinct from a timeout, the file is gone
afterwards, and the request is not resent. -/
theorem c4_matching_failure_raises
    (jloads : String → Option Json) (action_type : String)
    (parameters : List (String × String)) (action_id : String) (now m : Nat)
    (obs : Nat → FileState) (r : ActionResult)
    (hm : m * pollIntervalMs < maxWaitMs)
    (hbefore : ∀ k < m, checkOnce jloads action_id (obs k) = none)
    (hobs : obs m = .present r)
    (hid : r.actionId = some action_id)
    (hfail : r.success = some false) :
    (execute_action jloads action_type parameters action_id now obs).result.deletedAt
        = some m
    ∧ (execute_action jloads action_type parameters action_id now obs).result.outcome
        = .actionFailure ("Action failed: " ++ r.error.getD "Unknown error")
    ∧ (r.error = none →
        (execute_action jloads action_type parameters action_id now obs).result.outcome
          = .actionFailure "Action failed: Unknown error")
    ∧ (∀ s d, (execute_action jloads action_type parameters action_id now
        obs).result.outcome ≠ .timedOut s d)
    ∧ fileAfter obs (execute_action jloads action_type parameters action_id now obs)
        = .absent
    ∧ (execute_action jloads action_type parameters action_id now obs).requestsWritten
        = [⟨action_type, parameters, now, action_id⟩] := by
  have hc : checkOnce jloads action_id (obs m)
      = some (.actionFailure ("Action failed: " ++ r.error.getD "Unknown error")) := by
    rw [hobs]
    simp [checkOnce, hid, hfail]
  have hrun := execPoll_first_match jloads action_type action_id obs m _
    hm hbefore hc 0 (Nat.zero_le m)
  refine ⟨?_, ?_, ?_, ?_, ?_, ?_⟩
  · simp [execute_action, hrun]
  · simp [execute_action, hrun]
  · intro he
    simp [execute_action, hrun, he]
  · intro s d
    simp [execute_action, hrun]
  · simp [fileAfter, execute_action, hrun]
  · rfl

/-- Witness for C4: failing result with an explicit error observed at the
first poll. -/
def rFailW : ActionResult :=
  { actionId := some "id-w", success := some false, result := none, error := some "boom" }

theorem c4_witness :
    (execute_action jlNone "press_key" [] "id-w" 0
        (fun _ => FileState.present rFailW)).result.deletedAt = some 0
    ∧ (execute_action jlNone "press_key" [] "id-w" 0
        (fun _ => FileState.present rFailW)).result.outcome
          = .actionFailure ("Action failed: " ++ rFailW.error.getD "Unknown error")
    ∧ (rFailW.error = none →
        (execute_action jlNone "press_key" [] "id-w" 0
          (fun _ => FileState.present rFailW)).result.outcome
            = .actionFailure "Action failed: Unknown error")
    ∧ (∀ s d, (execute_action jlNone "press_key" [] "id-w" 0
        (fun _ => FileState.present rFailW)).result.outcome ≠ .timedOut s d)
    ∧ fileAfter (fun _ => FileState.present rFailW)
        (execute_action jlNone "press_key" [] "id-w" 0
          (fun _ => FileState.present rFailW)) = .absent
    ∧ (execute_action jlNone "press_key" [] "id-w" 0
        (fun _ => FileState.present rFailW)).requestsWritten
          = [⟨"press_key", [], 0, "id-w"⟩] :=
  c4_matching_failure_raises jlNone "press_key" [] "id-w" 0 0
    (fun _ => FileState.present rFailW) rFailW (by decide)
    (fun k hk => absurd hk (Nat.not_lt_zero k)) rfl rfl rfl

/-! ### Element index resolver (`_extract_element_coordinates_by_index`) -/

/-- An element node of the accessibility tree, per the file protocol:
`index` and `bounds` read with `.get` (possibly absent), nested `children`. -/
inductive UINode where
  | mk (index : Option Int) (bounds : Option String) (children : List UINode)

def UINode.index : UINode → Option Int
  | .mk i _ _ => i

def UINode.bounds : UINode → Option String
  | .mk _ b _ => b

def UINode.children : UINode → List UINode
  | .mk _ _ c => c

/-- The nested `find_element_by_index` helper: check each item in order,
recurse into its children, then move to the next sibling.  The source's
`if children:` / `if result:` tests check for an empty list and a `None`
result; a successfully returned node always carries the matched index, so
they coincide with this match structure. -/
def find_element_by_index (target : Int) : List UINode → Option UINode
  | [] => none
  | .mk i b ch :: rest =>
    if i = some target then some (.mk i b ch)
    else
      match find_element_by_index target ch with
      | some r => some r
      | none => find_element_by_index target rest

/-- Preorder flattening of a tree list: each node before its children,
children before later siblings.  Used only to state the specification
reading of the search order ("depth-first, node first, then each child in
order, first match wins"). -/
def preorderFlatten : List UINode → List UINode
  | [] => []
  | .mk i b ch :: rest => .mk i b ch :: (preorderFlatten ch ++ preorderFlatten rest)

/-- Modelled from the spec's words: the first node of the preorder listing
whose `index` equals the target. -/
def dfsFirstMatch (target : Int) (tree : List UINode) : Option UINode :=
  (preorderFlatten tree).find? fun n => decide (n.index = some target)

/-- Python's `"...".split(",")` on the character list: split at every comma,
keeping empty pieces (so the empty string yields one empty piece). -/
def splitCommaChars : List Char → List (List Char)
  | [] => [[]]
  | c :: cs =>
    if c = ',' then [] :: splitCommaChars cs
    else
      match splitCommaChars cs with
      | g :: gs => (c :: g) :: gs
      | [] => [[c]]

def splitComma (s : String) : List String :=
  (splitCommaChars s.toList).map List.asString

/-- Digit-string value, `none` when empty or containing a non-digit. -/
def digitsToNat (cs : List Char) : Option Nat :=
  if cs = [] then none
  else
    cs.foldlM (fun acc c => if c.isDigit then some (acc * 10 + (c.toNat - 48)) else none) 0

/-- Python's `int(...)` on the strings occurring in bounds: surrounding
whitespace is ignored, an optional sign precedes the digits, and anything
else raises `ValueError` (modelled as `none`). -/
def pyToInt (s : String) : Option Int :=
  let cs := ((s.toList.dropWhile Char.isWhitespace).reverse.dropWhile
    Char.isWhitespace).reverse
  match cs with
  | '-' :: rest => (digitsToNat rest).map (fun n => -(n : Int))
  | '+' :: rest => (digitsToNat rest).map (fun n => (n : Int))
  | _ => (digitsToNat cs).map (fun n => (n : Int))

/-- `[int(x) for x in bounds_str.split(",")]`, `none` when `int` raises. -/
def parseBounds (s : String) : Option (List Int) :=
  (splitComma s).mapM pyToInt

/-- Failure modes of `_extract_element_coordinates_by_index`, one per
`ValueError` raised by the source. -/
inductive LocateError where
  | noCache
  | notFound (index : Int)
  | noBounds (index : Int)
  | badIntLiteral (bounds_str : String)
  | invalidBoundsFormat (bounds_str : String)
deriving DecidableEq

/-- Model of `_extract_element_coordinates_by_index`: guard against an
empty cache, search, read `bounds` (absent or empty string both fail as
"no bounds"), parse the comma-separated integers, require exactly four,
and return the floor-division midpoint.  Python's `//` on `int` is floor
division, `Int.fdiv` here. -/
def locateByIndex (cache : List UINode) (index : Int) :
    Except LocateError (Int × Int) :=
  if cache.isEmpty then .error .noCache
  else
    match find_element_by_index index cache with
    | none => .error (.notFound index)
    | some element =>
      match element.bounds with
      | none => .error (.noBounds index)
      | some bounds_str =>
        if bounds_str = "" then .error (.noBounds index)
        else
          match parseBounds bounds_str with
          | none => .error (.badIntLiteral bounds_str)
          | some [left, top, right, bottom] =>
            .ok ((left + right).fdiv 2, (top + bottom).fdiv 2)
          | some _ => .error (.invalidBoundsFormat bounds_str)

/-- The example tree of the spec's testable property for `locate`. -/
def exTree : List UINode :=
  [ .mk (some 1) (some "0,0,10,10") [],
    .mk (some 2) (some "0,0,20,20") [ .mk (some 3) (some "4,4,6,6") [] ] ]

/-- The source's search visits each node before its children and children
before later siblings, returning the first match of that preorder. -/
theorem find_eq_dfsFirstMatch (target : Int) :
    (l : List UINode) → find_element_by_index target l = dfsFirstMatch target l
  | [] => by
    simp [find_element_by_index, dfsFirstMatch, preorderFlatten]
  | .mk i b ch :: rest => by
    have ih1 := find_eq_dfsFirstMatch target ch
    have ih2 := find_eq_dfsFirstMatch target rest
    by_cases h : i = some target
    · have hl : find_element_by_index target (UINode.mk i b ch :: rest)
          = some (.mk i b ch) := by
        simp [find_element_by_index, h]
      rw [hl]
      unfold dfsFirstMatch preorderFlatten
      rw [List.find?_cons_of_pos _ (by simp [UINode.index, h])]
    · unfold dfsFirstMatch preorderFlatten
      rw [List.find?_cons_of_neg _ (by simp [UINode.index, h]), List.find?_append]
      unfold dfsFirstMatch at ih1 ih2
      simp only [find_element_by_index, h, if_false]
      rw [ih1, ih2]
      cases hx : (preorderFlatten ch).find? (fun n => decide (n.index = some target)) <;>
        simp [Option.or]

/-- When the search succeeds and the found node's bounds parse as four
integers, `locateByIndex` returns their floor-division midpoint. -/
theorem locate_midpoint_of_found (cache : List UINode) (i : Int) (node : UINode)
    (bs : String) (l t r b : Int)
    (hne : cache ≠ [])
    (hfind : find_element_by_index i cache = some node)
    (hbounds : node.bounds = some bs)
    (hbs : bs ≠ "")
    (hparse : parseBounds bs = some [l, t, r, b]) :
    locateByIndex cache i = .ok ((l + r).fdiv 2, (t + b).fdiv 2) := by
  have hempty : cache.isEmpty = false := by
    cases cache with
    | nil => exact absurd rfl hne
    | cons x xs => rfl
  simp only [locateByIndex, hempty, Bool.false_eq_true, if_false, hfind, hbounds,
    if_neg hbs, hparse]

/-- C5: the element lookup is a preorder depth-first search (node first,
then each child in order) taking the first node whose `index` equals the
target; on success the coordinate is the floor-division midpoint of the
node's four comma-separated integer bounds; on the spec's example tree,
target 3 yields (5, 5) and target 99 fails as not found. -/
theorem c5_locate_preorder_midpoint :
    (∀ (target : Int) (tree : List UINode),
        find_element_by_index target tree = dfsFirstMatch target tree)
    ∧ (∀ (cache : List UINode) (i : Int) (node : UINode) (bs : String)
        (l t r b : Int),
        cache ≠ [] →
        find_element_by_index i cache = some node →
        node.bounds = some bs →
        bs ≠ "" →
        parseBounds bs = some [l, t, r, b] →
        locateByIndex cache i = .ok ((l + r).fdiv 2, (t + b).fdiv 2))
    ∧ locateByIndex exTree 3 = .ok (5, 5)
    ∧ locateByIndex exTree 99 = .error (.notFound 99) := by
  refine ⟨fun target tree => find_eq_dfsFirstMatch target tree,
    locate_midpoint_of_found, ?_, ?_⟩
  · have hf : find_element_by_index 3 exTree
        = some (.mk (some 3) (some "4,4,6,6") []) := by
      simp [find_element_by_index, exTree]
    simp only [locateByIndex, hf, UINode.bounds]
    rfl
  · have hf : find_element_by_index 99 exTree = none := by
      simp [find_element_by_index, exTree]
    simp only [locateByIndex, hf]
    rfl

/-- Witness for C5's midpoint implication at node 3 of the example tree. -/
theorem c5_witness :
    locateByIndex exTree 3 = .ok ((4 + 6 : Int).fdiv 2, (4 + 6 : Int).fdiv 2) :=
  c5_locate_preorder_midpoint.2.1 exTree 3 (.mk (some 3) (some "4,4,6,6") [])
    "4,4,6,6" 4 4 6 6 (by simp [exTree])
    (by simp [find_element_by_index, exTree]) rfl (by decide) rfl

/-! ### State reader (`get_state`) -/

/-- The `phoneState` record of a state snapshot: every field read from raw
JSON, so each may be absent.  `state_data.get("phoneState", {})` defaults
to the record with every field absent. -/
structure PhoneState where
  packageName : Option String
  currentApp : Option String
  activityName : Option String
  keyboardVisible : Option Bool
  isEditable : Option Bool
  focusedElement : Option (List (String × String))

/-- The empty dict `{}` used as default for a missing `phoneState`. -/
def emptyDictPhoneState : PhoneState :=
  { packageName := none, currentApp := none, activityName := none
  , keyboardVisible := none, isEditable := none, focusedElement := none }

/-- The literal sentinel `empty_phone_state` dict built by `get_state`. -/
def unknownPhoneState : PhoneState :=
  { packageName := some "Unknown", currentApp := some "Unknown"
  , activityName := some "Unknown", keyboardVisible := some false
  , isEditable := some false, focusedElement := some [] }

/-- A parsed state file, fields read with `state_data.get`. -/
structure StateData where
  formattedText : Option String
  focusedText : Option String
  a11yTree : Option (List UINode)
  phoneState : Option PhoneState

/-- What one attempt of the `get_state` retry loop can observe: the file is
missing (`os.path.exists` false), unparseable (`json.JSONDecodeError`,
caught and retried), parsed, or the attempt raises some other exception
(e.g. a permission error), caught by the outer handler. -/
inductive StateObs where
  | missing
  | malformed
  | ok (d : StateData)
  | ioError (msg : String)

/-- The 4-tuple `get_state` returns. -/
structure StateView where
  formatted_text : String
  focused_text : String
  a11y_tree : List UINode
  phone_state : PhoneState

/-- `max_retries = 10`. -/
def max_retries : Nat := 10

/-- The `for attempt in range(max_retries)` loop of `get_state`, with the
observation trace as input.  Returns the view, the value of
`self.clickable_elements_cache` after the call (updated only on a
successful parse), and the number of attempts consumed. -/
def get_state_loop (obs : Nat → StateObs) (cache : List UINode) :
    (fuel attempt : Nat) → StateView × List UINode × Nat
  | 0, attempt =>
    (⟨"State not available", "", [], unknownPhoneState⟩, cache, attempt)
  | fuel + 1, attempt =>
    match obs attempt with
    | .ok d =>
      (⟨d.formattedText.getD "", d.focusedText.getD "", d.a11yTree.getD [],
          d.phoneState.getD emptyDictPhoneState⟩,
        d.a11yTree.getD [], attempt + 1)
    | .missing => get_state_loop obs cache fuel (attempt + 1)
    | .malformed => get_state_loop obs cache fuel (attempt + 1)
    | .ioError msg => (⟨"Error: " ++ msg, "", [], unknownPhoneState⟩, cache, attempt + 1)

/-- Model of `get_state`: view returned, cache afterwards, attempts used. -/
def get_state (obs : Nat → StateObs) (cache : List UINode) :
    StateView × List UINode × Nat :=
  get_state_loop obs cache max_retries 0

/-! ### Session-state operations of the facade -/

/-- Python's `str.strip()`: drop whitespace from both ends. -/
def pyStrip (s : String) : String :=
  (((s.toList.dropWhile Char.isWhitespace).reverse.dropWhile
    Char.isWhitespace).reverse).asString

/-- Model of `remember`: the new `self.memory` and the returned string.
The source also rejects non-`str` input; arguments here are typed, so the
only invalid input is the empty string (the falsy case of
`if not information`). -/
def remember (memory : List String) (information : String) :
    List String × String :=
  if information = "" then
    (memory, "Error: Please provide valid information to remember.")
  else
    let mem1 := memory ++ [pyStrip information]
    let mem2 := if mem1.length > 10 then mem1.drop (mem1.length - 10) else mem1
    (mem2, "Remembered: " ++ information)

/-- A sequence of `remember` calls starting from the fresh empty log. -/
def runRemember (notes : List String) : List String :=
  notes.foldl (fun m note => (remember m note).1) []

/-- The most recent `n` entries of a list, in order (`l[-n:]`). -/
def keepLast {α : Type} (n : Nat) (l : List α) : List α :=
  l.drop (l.length - n)

/-- The completion flags set by `complete` on the facade. -/
structure CompletionStatus where
  success : Option Bool
  reason : Option String
  finished : Bool

/-- Python's `str` on a `bool`. -/
def pyStrBool (b : Bool) : String :=
  if b then "True" else "False"

/-- Model of `complete`: the updated status fields and the
`(action_type, parameters)` pair passed to `_execute_action`.  Note the
source sends the original `reason`, not the defaulted one. -/
def complete (success : Bool) (reason : String) :
    CompletionStatus × (String × List (String × String)) :=
  ( { success := some success
    , reason := some (if reason = "" then
        (if success then "Task completed successfully." else "Task failed.")
        else reason)
    , finished := true }
  , ("complete", [("success", pyStrBool success), ("reason", reason)]) )

/-- Model of `tap_by_index`: the `(action_type, parameters)` pair it passes
to `_execute_action`.  The method reads nothing from the facade besides the
channel; the cache argument mirrors `self.clickable_elements_cache` being
in scope and is unused, exactly as in the source. -/
def tap_by_index (cache : List UINode) (index : Int) :
    String × List (String × String) :=
  ("tap_by_index", [("index", toString index)])

/-! ### State-reader lemmas -/

/-- A transient observation (missing or unparseable file) consumes one
attempt and continues the loop. -/
theorem get_state_loop_transient_run (obs : Nat → StateObs) (cache : List UINode) :
    ∀ fuel attempt,
      (∀ k, attempt ≤ k → k < attempt + fuel →
        (obs k = .missing ∨ obs k = .malformed)) →
      get_state_loop obs cache fuel attempt
        = (⟨"State not available", "", [], unknownPhoneState⟩, cache, attempt + fuel) := by
  intro fuel
  induction fuel with
  | zero =>
    intro attempt _
    simp [get_state_loop]
  | succ f ih =>
    intro attempt h
    have harith : attempt + (f + 1) = attempt + 1 + f := by omega
    rcases h attempt (Nat.le_refl _) (by omega) with hm | hm <;>
    · simp only [get_state_loop, hm]
      rw [ih (attempt + 1) (fun k hk1 hk2 => h k (by omega) (by omega)), harith]

/-- A successful parse at the current attempt returns at once, updating the
cache to the snapshot's tree. -/
theorem get_state_loop_success (obs : Nat → StateObs) (cache : List UINode)
    (fuel attempt : Nat) (d : StateData)
    (hobs : obs attempt = .ok d) (hf : 0 < fuel) :
    get_state_loop obs cache fuel attempt
      = (⟨d.formattedText.getD "", d.focusedText.getD "", d.a11yTree.getD [],
          d.phoneState.getD emptyDictPhoneState⟩, d.a11yTree.getD [], attempt + 1) := by
  cases fuel with
  | zero => omega
  | succ f => simp [get_state_loop, hobs]

/-- Any other exception at the current attempt is caught by the outer
handler, which returns the sentinel shape with the error in the text
field; the cache is left unchanged. -/
theorem get_state_loop_ioError (obs : Nat → StateObs) (cache : List UINode)
    (fuel attempt : Nat) (msg : String)
    (hobs : obs attempt = .ioError msg) (hf : 0 < fuel) :
    get_state_loop obs cache fuel attempt
      = (⟨"Error: " ++ msg, "", [], unknownPhoneState⟩, cache, attempt + 1) := by
  cases fuel with
  | zero => omega
  | succ f => simp [get_state_loop, hobs]

/-- Skipping a transient prefix of the trace. -/
theorem get_state_loop_skip (obs : Nat → StateObs) (cache : List UINode) :
    ∀ j fuel attempt,
      (∀ k, attempt ≤ k → k < attempt + j →
        (obs k = .missing ∨ obs k = .malformed)) →
      get_state_loop obs cache (j + fuel) attempt
        = get_state_loop obs cache fuel (attempt + j) := by
  intro j
  induction j with
  | zero =>
    intro fuel attempt _
    rw [Nat.zero_add, Nat.add_zero]
  | succ i ih =>
    intro fuel attempt h
    have harith : i + 1 + fuel = (i + fuel) + 1 := by omega
    rw [harith]
    have harith2 : attempt + (i + 1) = attempt + 1 + i := by omega
    rcases h attempt (Nat.le_refl _) (by omega) with hm | hm <;>
    · simp only [get_state_loop, hm]
      rw [ih fuel (attempt + 1) (fun k hk1 hk2 => h k (by omega) (by omega)), harith2]

/-- Counterexample to C6 as stated: when the state file never becomes
parseable, the snapshot `get_state` returns does NOT have empty text — its
text field (the first tuple component, where the error branch also embeds
its message) is the fixed string "State not available". -/
theorem c6_counterexample :
    (get_state (fun _ => StateObs.missing) []).1.formatted_text ≠ "" := by
  decide

/-- C6 (amended): `get_state` never raises; when the state file never
becomes readable and parseable it returns, after exactly 10 attempts, the
sentinel snapshot whose text field is "State not available" (not empty),
with empty focused text, empty element tree and a phoneState whose
packageName is "Unknown"; any other unexpected failure yields the same
sentinel shape with the error embedded in the text field. -/
theorem c6_sentinel_after_exact_retries
    (obs : Nat → StateObs) (cache : List UINode)
    (htrans : ∀ k < 10, obs k = .missing ∨ obs k = .malformed) :
    get_state obs cache
      = (⟨"State not available", "", [], unknownPhoneState⟩, cache, 10)
    ∧ unknownPhoneState.packageName = some "Unknown"
    ∧ (∀ (obs2 : Nat → StateObs) (cache2 : List UINode) (msg : String),
        obs2 0 = .ioError msg →
        (get_state obs2 cache2).1 = ⟨"Error: " ++ msg, "", [], unknownPhoneState⟩) := by
  refine ⟨?_, rfl, ?_⟩
  · unfold get_state max_retries
    rw [get_state_loop_transient_run obs cache 10 0
      (fun k hk1 hk2 => htrans k (by omega))]
  · intro obs2 cache2 msg hobs
    unfold get_state max_retries
    rw [get_state_loop_ioError obs2 cache2 10 0 msg hobs (by omega)]

/-- Witness for C6 (amended) on the trace where the file never exists. -/
theorem c6_witness :
    get_state (fun _ => StateObs.missing) []
      = (⟨"State not available", "", [], unknownPhoneState⟩, [], 10)
    ∧ unknownPhoneState.packageName = some "Unknown"
    ∧ (∀ (obs2 : Nat → StateObs) (cache2 : List UINode) (msg : String),
        obs2 0 = .ioError msg →
        (get_state obs2 cache2).1 = ⟨"Error: " ++ msg, "", [], unknownPhoneState⟩) :=
  c6_sentinel_after_exact_retries (fun _ => StateObs.missing) []
    (fun k hk => Or.inl rfl)

/-- Counterexample to C9 as stated: after a `get_state` call that exhausts
its retries, the cached element tree (unchanged, here one node) differs
from the `a11y_tree` of the sentinel snapshot the call returned (empty):
the cache is only updated on a successful parse. -/
theorem c9_counterexample :
    (get_state (fun _ => StateObs.missing) [UINode.mk (some 1) none []]).2.1
      ≠ (get_state (fun _ => StateObs.missing) [UINode.mk (some 1) none []]).1.a11y_tree := by
  intro h
  have h1 : (get_state (fun _ => StateObs.missing) [UINode.mk (some 1) none []]).2.1
      = [UINode.mk (some 1) none []] := rfl
  have h2 : (get_state (fun _ => StateObs.missing)
      [UINode.mk (some 1) none []]).1.a11y_tree = [] := rfl
  rw [h1, h2] at h
  exact List.cons_ne_nil _ _ h

/-- C9 (amended): after a `get_state` call that successfully reads and
parses the state file within the retry budget, the cached element tree
equals the `a11y_tree` of the returned snapshot; a call that returns the
sentinel snapshot (retries exhausted, or an unexpected error) leaves the
cache unchanged instead of matching the returned empty tree. -/
theorem c9_cache_follows_successful_snapshot
    (obs : Nat → StateObs) (cache : List UINode) :
    (∀ n d, n < 10 →
        (∀ k < n, obs k = .missing ∨ obs k = .malformed) →
        obs n = .ok d →
        (get_state obs cache).2.1 = (get_state obs cache).1.a11y_tree)
    ∧ ((∀ k < 10, obs k = .missing ∨ obs k = .malformed) →
        (get_state obs cache).2.1 = cache)
    ∧ (∀ n msg, n < 10 →
        (∀ k < n, obs k = .missing ∨ obs k = .malformed) →
        obs n = .ioError msg →
        (get_state obs cache).2.1 = cache) := by
  refine ⟨?_, ?_, ?_⟩
  · intro n d hn hpre hobs
    have hsplit : max_retries = n + (10 - n) := by
      unfold max_retries
      omega
    unfold get_state
    rw [hsplit, get_state_loop_skip obs cache n (10 - n) 0
      (fun k hk1 hk2 => hpre k (by omega)), Nat.zero_add,
      get_state_loop_success obs cache (10 - n) n d hobs (by omega)]
  · intro htrans
    unfold get_state max_retries
    rw [get_state_loop_transient_run obs cache 10 0
      (fun k hk1 hk2 => htrans k (by omega))]
  · intro n msg hn hpre hobs
    have hsplit : max_retries = n + (10 - n) := by
      unfold max_retries
      omega
    unfold get_state
    rw [hsplit, get_state_loop_skip obs cache n (10 - n) 0
      (fun k hk1 hk2 => hpre k (by omega)), Nat.zero_add,
      get_state_loop_ioError obs cache (10 - n) n msg hobs (by omega)]

/-- A concrete parsed state file used by the C9 witness. -/
def dW : StateData :=
  { formattedText := some "text", focusedText := some ""
  , a11yTree := some [UINode.mk (some 1) (some "0,0,10,10") []]
  , phoneState := none }

/-- Witness for C9 (amended): a successful read at the first attempt. -/
theorem c9_witness :
    (get_state (fun _ => StateObs.ok dW) []).2.1
      = (get_state (fun _ => StateObs.ok dW) []).1.a11y_tree :=
  (c9_cache_follows_successful_snapshot (fun _ => StateObs.ok dW) []).1 0 dW
    (by omega) (fun k hk => absurd hk (Nat.not_lt_zero k)) rfl

/-! ### Memory-log lemmas -/

theorem keepLast_of_le {α : Type} (n : Nat) (l : List α) (h : l.length ≤ n) :
    keepLast n l = l := by
  unfold keepLast
  rw [Nat.sub_eq_zero_of_le h, List.drop_zero]

theorem keepLast_length_le {α : Type} (n : Nat) (l : List α) :
    (keepLast n l).length ≤ n := by
  unfold keepLast
  rw [List.length_drop]
  omega

theorem keepLast_append_keepLast {α : Type} (n : Nat) (xs ys : List α) :
    keepLast n (keepLast n xs ++ ys) = keepLast n (xs ++ ys) := by
  unfold keepLast
  rw [List.drop_append_eq_append_drop, List.drop_append_eq_append_drop,
    List.drop_drop]
  simp only [List.length_append, List.length_drop]
  congr 1
  · congr 1
    omega
  · congr 1
    omega

/-- One valid `remember` call appends the stripped note and keeps the last
ten entries. -/
theorem remember_valid_step (m : List String) (s : String) (hs : s ≠ "") :
    (remember m s).1 = keepLast 10 (m ++ [pyStrip s]) := by
  unfold remember keepLast
  rw [if_neg hs]
  dsimp only
  by_cases hlen : (m ++ [pyStrip s]).length > 10
  · rw [if_pos hlen]
  · rw [if_neg hlen, Nat.sub_eq_zero_of_le (by omega), List.drop_zero]

theorem remember_length_le (m : List String) (s : String) (hm : m.length ≤ 10) :
    ((remember m s).1).length ≤ 10 := by
  unfold remember
  by_cases hs : s = ""
  · simpa [hs] using hm
  · rw [if_neg hs]
    by_cases hlen : (m ++ [pyStrip s]).length > 10
    · simp only [hlen, if_true]
      rw [List.length_drop]
      omega
    · simp only [hlen, if_false]
      simp only [List.length_append, List.length_singleton] at hlen ⊢
      omega

theorem runRemember_fold (notes : List String) :
    ∀ m, (∀ x ∈ notes, x ≠ "") → m.length ≤ 10 →
      notes.foldl (fun acc note => (remember acc note).1) m
        = keepLast 10 (m ++ notes.map pyStrip) := by
  induction notes with
  | nil =>
    intro m _ hm
    simp only [List.foldl_nil, List.map_nil, List.append_nil]
    exact (keepLast_of_le 10 m hm).symm
  | cons note rest ih =>
    intro m hv hm
    rw [List.foldl_cons,
      remember_valid_step m note (hv note (List.mem_cons_self _ _)),
      ih (keepLast 10 (m ++ [pyStrip note]))
        (fun x hx => hv x (List.mem_cons_of_mem _ hx)) (keepLast_length_le 10 _),
      keepLast_append_keepLast]
    simp [List.append_assoc]

theorem runRemember_length_le (notes : List String) :
    (runRemember notes).length ≤ 10 := by
  unfold runRemember
  have key : ∀ (l : List String) (m : List String), m.length ≤ 10 →
      (l.foldl (fun acc note => (remember acc note).1) m).length ≤ 10 := by
    intro l
    induction l with
    | nil =>
      intro m hm
      simpa using hm
    | cons a rest ih =>
      intro m hm
      rw [List.foldl_cons]
      exact ih _ (remember_length_le m a hm)
  exact key notes [] (by simp)

/-- C7: the memory log never exceeds 10 entries, eviction is FIFO: after
any sequence of valid `remember` calls the log holds the (stripped) most
recent at most 10 notes in their original relative order; in particular 11
calls with distinct notes retain exactly the last 10. -/
theorem c7_memory_capacity_fifo :
    (∀ notes : List String, (runRemember notes).length ≤ 10)
    ∧ (∀ notes : List String, (∀ x ∈ notes, x ≠ "") →
        runRemember notes = keepLast 10 (notes.map pyStrip))
    ∧ runRemember ["n01", "n02", "n03", "n04", "n05", "n06", "n07", "n08",
        "n09", "n10", "n11"]
      = ["n02", "n03", "n04", "n05", "n06", "n07", "n08", "n09", "n10", "n11"] := by
  refine ⟨runRemember_length_le, ?_, ?_⟩
  · intro notes hv
    unfold runRemember
    rw [runRemember_fold notes [] hv (by simp)]
    simp
  · decide

/-- Witness for C7's FIFO characterisation on two concrete notes. -/
theorem c7_witness :
    runRemember ["alpha", "beta"] = keepLast 10 (["alpha", "beta"].map pyStrip) :=
  c7_memory_capacity_fifo.2.1 ["alpha", "beta"] (by decide)

/-- C8: `complete` sets finished to true and success to the given flag,
sets reason to the given string when non-empty and to the canned
success/failure message when empty, and sends a "complete" action through
the channel (with the original, undefaulted reason in its parameters). -/
theorem c8_complete_sets_status :
    (∀ (b : Bool) (r : String),
        (complete b r).1.finished = true
        ∧ (complete b r).1.success = some b
        ∧ (complete b r).2.1 = "complete"
        ∧ (complete b r).2.2 = [("success", pyStrBool b), ("reason", r)])
    ∧ (∀ (b : Bool) (r : String), r ≠ "" → (complete b r).1.reason = some r)
    ∧ (∀ b : Bool, (complete b "").1.reason
        = some (if b then "Task completed successfully." else "Task failed."))
    ∧ (complete false "").1.finished = true
    ∧ (complete false "").1.success = some false
    ∧ (complete false "").1.reason = some "Task failed."
    ∧ (complete true "done").1.reason = some "done" := by
  refine ⟨fun b r => ⟨rfl, rfl, rfl, rfl⟩, ?_, fun b => rfl, rfl, rfl, rfl, rfl⟩
  intro b r hr
  simp [complete, hr]

/-- Witness for C8's non-empty-reason clause. -/
theorem c8_witness :
    (complete true "all done").1.reason = some "all done" :=
  c8_complete_sets_status.2.1 true "all done" (by decide)

/-- C10: `tap_by_index` sends the action `("tap_by_index", [("index",
str(index))])` through the channel without consulting the cached element
tree or the coordinate resolver; in particular it sends the same request
even when the index is absent from the cached tree (no NotFound). -/
theorem c10_tap_by_index_ignores_cache :
    (∀ (cache cache2 : List UINode) (i : Int),
        tap_by_index cache i = tap_by_index cache2 i)
    ∧ (∀ (cache : List UINode) (i : Int),
        tap_by_index cache i = ("tap_by_index", [("index", toString i)]))
    ∧ (∀ (cache : List UINode) (i : Int),
        find_element_by_index i cache = none →
        tap_by_index cache i = ("tap_by_index", [("index", toString i)])) :=
  ⟨fun _ _ _ => rfl, fun _ _ => rfl, fun _ _ _ => rfl⟩

/-- Witness for C10 at an index absent from an empty cache. -/
theorem c10_witness :
    tap_by_index [] 99 = ("tap_by_index", [("index", toString (99 : Int))]) :=
  c10_tap_by_index_ignores_cache.2.2 [] 99 (by simp [find_element_by_index])
